import Mathlib

/-!
Shape-level embedding of `rvseg/models/dilatedunet.py`.

Keras graph construction is modelled by the static shapes it computes: each
layer becomes a function on `Shape`, and constructions that raise while the
graph is being built (the `assert` statements of the source, and negative
output dimensions rejected by the backend) become `Except.error`.  Layers that
never change the static shape — `BatchNormalization`, `Activation`, `Dropout`,
the temperature `Lambda` and the final softmax — are shape-level identities,
kept as named functions so the block structure of the source is preserved
line by line.
-/

/-- Static shape `(height, width, channels)` of a tensor handle; the symbolic
batch dimension returned by `K.int_shape` is elided. -/
structure Shape where
  height : ℕ
  width : ℕ
  channels : ℕ
deriving DecidableEq, Repr

/-- The two padding modes the source passes to its convolutions. -/
inductive Padding
  | valid
  | same
deriving DecidableEq, Repr

/-- Construction-time failures: the two evenness `assert`s of
`downsampling_block` (lines 13-14), a negative output dimension rejected by
the backend when a `valid` convolution or a pooling window does not fit, the
two crop `assert`s of `upsampling_block` (lines 38-39), and a spatial mismatch
rejected by `Concatenate`. -/
inductive BuildErr
  | oddHeight (h : ℕ)
  | oddWidth (w : ℕ)
  | negDim (size need : ℕ)
  | negCropHeight (sh xh : ℕ)
  | negCropWidth (sw xw : ℕ)
  | concatMismatch (a b : Shape)
deriving DecidableEq, Repr

/-- Whether an error is one of the two crop `assert`s of lines 38-39. -/
def BuildErr.isNegCrop : BuildErr → Bool
  | .negCropHeight _ _ => true
  | .negCropWidth _ _ => true
  | _ => false

/-- Effective extent of a dilated kernel of size `k` and dilation `d`
(`dilated_filter_size` in Keras's `conv_utils.conv_output_length`). -/
def dilatedKernel (k d : ℕ) : ℕ := (k - 1) * d + 1

/-- Output length along one spatial axis of a stride-1 convolution, following
Keras's `conv_output_length`: `same` keeps the length, `valid` yields
`n - dilatedKernel + 1`, and the backend rejects a negative result. -/
def convDim (pad : Padding) (k d n : ℕ) : Except BuildErr ℕ :=
  match pad with
  | .same => .ok n
  | .valid =>
    if n + 1 < dilatedKernel k d then .error (.negDim n (dilatedKernel k d))
    else .ok (n + 1 - dilatedKernel k d)

/-- `Conv2D(filters, kernel_size=(k,k), padding=pad, dilation_rate=d)`:
stride-1 convolution applied to both spatial axes; channels become
`filters`. -/
def conv2D (pad : Padding) (filters k d : ℕ) (s : Shape) : Except BuildErr Shape :=
  match convDim pad k d s.height, convDim pad k d s.width with
  | .ok h, .ok w => .ok ⟨h, w, filters⟩
  | .error e, _ => .error e
  | .ok _, .error e => .error e

/-- Output length of a `MaxPooling2D(pool_size=2)` window (stride 2, valid
padding): `⌈(n - 1) / 2⌉ = n / 2`, rejected when the window yields a negative
dimension (`n = 0`). -/
def poolDim (n : ℕ) : Except BuildErr ℕ :=
  if n = 0 then .error (.negDim n 2) else .ok (n / 2)

/-- `MaxPooling2D(pool_size=(2,2))`: halves both spatial axes, keeps
channels. -/
def pool2x2 (s : Shape) : Except BuildErr Shape :=
  match poolDim s.height, poolDim s.width with
  | .ok h, .ok w => .ok ⟨h, w, s.channels⟩
  | .error e, _ => .error e
  | .ok _, .error e => .error e

/-- Output length of a transposed convolution with the given stride and kernel
size, following Keras's `deconv_length`: `valid` gives
`n * stride + max (k - stride) 0`, `same` gives `n * stride`. -/
def deconvDim (pad : Padding) (stride k n : ℕ) : ℕ :=
  match pad with
  | .valid => n * stride + (k - stride)
  | .same => n * stride

/-- `BatchNormalization()` preserves the static shape; the flag mirrors the
`if batchnorm` layer-insertion branch of the source. -/
def batchNorm (bn : Bool) (s : Shape) : Shape := if bn then s else s

/-- `Activation('relu')` and `Activation('softmax')` preserve the static
shape. -/
def activation (s : Shape) : Shape := s

/-- `Dropout(rate)` preserves the static shape; the comparison mirrors the
`if dropout > 0` layer-insertion branch of the source.  (Rates ≥ 1 may be
rejected by some backends when such a layer is built; no configuration below
reaches that region.) -/
def dropoutL (rate : ℚ) (s : Shape) : Shape := if 0 < rate then s else s

/-- `Lambda(lambda z: z/temperature)`: builds a deferred elementwise division
node; the value of `temperature` is captured in the closure and never
evaluated during construction, so the static shape is preserved for every
`t`. -/
def tempScale (t : ℚ) (s : Shape) : Shape := s

/-- `Activation('softmax')`: shape-preserving. -/
def softmax (s : Shape) : Shape := s

/-- `downsampling_block` (lines 10-27): assert both input dimensions even,
then conv (dilation 1), batchnorm?, relu, dropout?, conv (dilation 2),
batchnorm?, relu, dropout?, and return `(pooled, pre_pool)`. -/
def downsamplingBlock (pad : Padding) (bn : Bool) (dr : ℚ) (filters : ℕ)
    (s : Shape) : Except BuildErr (Shape × Shape) :=
  if s.height % 2 ≠ 0 then .error (.oddHeight s.height)
  else if s.width % 2 ≠ 0 then .error (.oddWidth s.width)
  else
    match conv2D pad filters 3 1 s with
    | .error e => .error e
    | .ok x1 =>
      match conv2D pad filters 3 2 (dropoutL dr (activation (batchNorm bn x1))) with
      | .error e => .error e
      | .ok x2 =>
        match pool2x2 (dropoutL dr (activation (batchNorm bn x2))) with
        | .error e => .error e
        | .ok p => .ok (p, dropoutL dr (activation (batchNorm bn x2)))

/-- The `Conv2DTranspose(filters, kernel_size=(2,2), strides=(2,2))` of
line 31: the source passes no `padding` argument, so the Keras default
`'valid'` is used whatever the configured padding mode. -/
def upsampled (x : Shape) (filters : ℕ) : Shape :=
  ⟨deconvDim .valid 2 2 x.height, deconvDim .valid 2 2 x.width, filters⟩

/-- The crop split of line 43: `(c // 2, c - c // 2)`. -/
def cropSplit (c : ℕ) : ℕ × ℕ := (c / 2, c - c / 2)

/-- Lines 40-44: the skip tensor is used unmodified when both crop amounts are
zero, and centre-cropped by `cropSplit` otherwise.  `xh, xw` are the spatial
dims of the upsampled tensor; the crop `assert`s have already passed, so the
subtractions are exact. -/
def fitSkip (xh xw : ℕ) (skip : Shape) : Shape :=
  let hcrop := skip.height - xh
  let wcrop := skip.width - xw
  if hcrop = 0 ∧ wcrop = 0 then skip
  else
    ⟨skip.height - ((cropSplit hcrop).1 + (cropSplit hcrop).2),
     skip.width - ((cropSplit wcrop).1 + (cropSplit wcrop).2),
     skip.channels⟩

/-- `upsampling_block` (lines 29-59): transposed convolution, crop `assert`s,
crop-or-keep of the skip tensor, channel concatenation, then two undilated
convolutions with batchnorm?/relu/dropout? after each. -/
def upsamplingBlock (pad : Padding) (bn : Bool) (dr : ℚ) (filters : ℕ)
    (x skip : Shape) : Except BuildErr Shape :=
  let u := upsampled x filters
  if skip.height < u.height then .error (.negCropHeight skip.height u.height)
  else if skip.width < u.width then .error (.negCropWidth skip.width u.width)
  else
    let y := fitSkip u.height u.width skip
    if y.height ≠ u.height ∨ y.width ≠ u.width then .error (.concatMismatch u y)
    else
      match conv2D pad filters 3 1 ⟨u.height, u.width, u.channels + y.channels⟩ with
      | .error e => .error e
      | .ok z1 =>
        match conv2D pad filters 3 1 (dropoutL dr (activation (batchNorm bn z1))) with
        | .error e => .error e
        | .ok z2 => .ok (dropoutL dr (activation (batchNorm bn z2)))

/-- The encoder loop of lines 97-102: `depth` downsampling blocks, collecting
skip tensors in stage order and doubling `features` after each stage; returns
the skip list, the final pooled tensor and the final feature count. -/
def encoder (pad : Padding) (bn : Bool) (dr : ℚ) :
    ℕ → Shape → ℕ → Except BuildErr (List Shape × Shape × ℕ)
  | 0, x, f => .ok ([], x, f)
  | d + 1, x, f =>
    match downsamplingBlock pad bn dr f x with
    | .error e => .error e
    | .ok (p, s) =>
      match encoder pad bn dr d p (f * 2) with
      | .error e => .error e
      | .ok (skips, x1, f1) => .ok (s :: skips, x1, f1)

/-- The bottleneck loop of lines 104-111: `dilationLayers` convolutions with
doubling dilation rate and unchanged feature count; also returns, as an
observation of the construction, the `(dilation_rate, filters)` pair of each
layer in order. -/
def bottleneck (pad : Padding) (bn : Bool) (dr : ℚ) (f : ℕ) :
    ℕ → ℕ → Shape → Except BuildErr (Shape × List (ℕ × ℕ))
  | 0, _, x => .ok (x, [])
  | n + 1, rate, x =>
    match conv2D pad f 3 rate x with
    | .error e => .error e
    | .ok x1 =>
      match bottleneck pad bn dr f n (rate * 2) (dropoutL dr (activation (batchNorm bn x1))) with
      | .error e => .error e
      | .ok (y, tr) => .ok (y, (rate, f) :: tr)

/-- The decoder loop of lines 113-116: skips are consumed in reverse index
order (`for i in reversed(range(depth))`), `features` is halved before each
stage; the recursion descends to the deepest skip first, so the head of the
list is processed last.  Also returns, as an observation of the construction,
the `(skip, filters)` pair of each stage in consumption order. -/
def decoder (pad : Padding) (bn : Bool) (dr : ℚ) :
    List Shape → Shape → ℕ → Except BuildErr (Shape × ℕ × List (Shape × ℕ))
  | [], x, f => .ok (x, f, [])
  | s :: rest, x, f =>
    match decoder pad bn dr rest x f with
    | .error e => .error e
    | .ok (x1, f1, tr) =>
      match upsamplingBlock pad bn dr (f1 / 2) x1 s with
      | .error e => .error e
      | .ok y => .ok (y, f1 / 2, tr ++ [(s, f1 / 2)])

/-- The result of a successful build: the output tensor shape, plus the
construction observations needed to state the bookkeeping invariants (the
skip list, the bottleneck `(rate, filters)` trace, and the decoder
`(skip, filters)` consumption trace). -/
structure ModelInfo where
  out : Shape
  skips : List Shape
  dilTrace : List (ℕ × ℕ)
  decTrace : List (Shape × ℕ)
deriving DecidableEq, Repr

/-- `dilated_unet` (lines 62-123): input placeholder, encoder, bottleneck
(dilation rate starting at 1), decoder, 1×1 projection to `classes` channels
(Keras default padding `'valid'`), temperature `Lambda` and softmax. -/
def dilatedUnet (height width channels classes features depth : ℕ)
    (temperature : ℚ) (pad : Padding) (batchnorm : Bool) (dropout : ℚ)
    (dilationLayers : ℕ) : Except BuildErr ModelInfo :=
  match encoder pad batchnorm dropout depth ⟨height, width, channels⟩ features with
  | .error e => .error e
  | .ok (skips, x1, f1) =>
    match bottleneck pad batchnorm dropout f1 dilationLayers 1 x1 with
    | .error e => .error e
    | .ok (x2, dtr) =>
      match decoder pad batchnorm dropout skips x2 f1 with
      | .error e => .error e
      | .ok (x3, _, ctr) =>
        match conv2D .valid classes 1 1 x3 with
        | .error e => .error e
        | .ok logits => .ok ⟨softmax (tempScale temperature logits), skips, dtr, ctr⟩

/-- The model built by the documented reference configuration
`height=256, width=256, channels=1, classes=5, padding='same', depth=3`
(remaining arguments at their source defaults). -/
def model256 : ModelInfo :=
  ⟨⟨256, 256, 5⟩,
   [⟨256, 256, 64⟩, ⟨128, 128, 128⟩, ⟨64, 64, 256⟩],
   [(1, 512), (2, 512), (4, 512), (8, 512), (16, 512)],
   [(⟨64, 64, 256⟩, 256), (⟨128, 128, 128⟩, 128), (⟨256, 256, 64⟩, 64)]⟩

/-- Invariant linking the encoder's skip list (stage order) to the tensor
handed to the decoder: each skip is at least twice as large, spatially, as the
next deeper skip, and the deepest skip is at least twice the decoder input.
This is what makes the crop amounts of `upsampling_block` non-negative. -/
def hangs : List Shape → Shape → Prop
  | [], _ => True
  | s :: rest, x =>
    hangs rest x ∧
      match rest with
      | [] => 2 * x.height ≤ s.height ∧ 2 * x.width ≤ s.width
      | s1 :: _ => 2 * s1.height ≤ s.height ∧ 2 * s1.width ≤ s.width

/-- Exact version of `hangs` holding in `same`-padding mode: each skip is
spatially exactly twice the next deeper one, and the deepest exactly twice the
decoder input. -/
def sameChain : List Shape → Shape → Prop
  | [], _ => True
  | s :: rest, x =>
    sameChain rest x ∧
      match rest with
      | [] => s.height = 2 * x.height ∧ s.width = 2 * x.width
      | s1 :: _ => s.height = 2 * s1.height ∧ s.width = 2 * s1.width

/-! ## Basic layer lemmas -/

@[simp]
theorem batchNorm_eq (bn : Bool) (s : Shape) : batchNorm bn s = s := by
  cases bn <;> rfl

@[simp]
theorem dropoutL_eq (dr : ℚ) (s : Shape) : dropoutL dr s = s := by
  unfold dropoutL; split <;> rfl

@[simp]
theorem activation_eq (s : Shape) : activation s = s := rfl

@[simp]
theorem tempScale_eq (t : ℚ) (s : Shape) : tempScale t s = s := rfl

@[simp]
theorem softmax_eq (s : Shape) : softmax s = s := rfl

theorem convDim_le {pad : Padding} {k d n m : ℕ} (h : convDim pad k d n = .ok m) :
    m ≤ n := by
  unfold convDim at h
  cases pad
  · simp only at h
    split at h
    · cases h
    · cases h
      have h1 : 1 ≤ dilatedKernel k d := Nat.le_add_left 1 _
      omega
  · cases h; exact Nat.le_refl n

theorem convDim_err {pad : Padding} {k d n : ℕ} {e : BuildErr}
    (h : convDim pad k d n = .error e) : ∃ a b, e = .negDim a b := by
  unfold convDim at h
  cases pad
  · simp only at h
    split at h
    · cases h; exact ⟨_, _, rfl⟩
    · cases h
  · cases h

theorem conv2D_ok {pad : Padding} {f k d : ℕ} {s t : Shape}
    (h : conv2D pad f k d s = .ok t) :
    t.channels = f ∧ t.height ≤ s.height ∧ t.width ≤ s.width := by
  unfold conv2D at h
  split at h
  · cases h
    exact ⟨rfl, convDim_le (by assumption), convDim_le (by assumption)⟩
  · cases h
  · cases h

theorem conv2D_err {pad : Padding} {f k d : ℕ} {s : Shape} {e : BuildErr}
    (h : conv2D pad f k d s = .error e) : ∃ a b, e = .negDim a b := by
  unfold conv2D at h
  split at h
  · cases h
  · cases h; exact convDim_err (by assumption)
  · cases h; exact convDim_err (by assumption)

theorem conv2D_same (f k d : ℕ) (s : Shape) :
    conv2D .same f k d s = .ok ⟨s.height, s.width, f⟩ := rfl

theorem conv1x1_valid (f : ℕ) (s : Shape) :
    conv2D .valid f 1 1 s = .ok ⟨s.height, s.width, f⟩ := rfl

theorem pool2x2_ok {s t : Shape} (h : pool2x2 s = .ok t) :
    t.height = s.height / 2 ∧ t.width = s.width / 2 ∧ t.channels = s.channels := by
  unfold pool2x2 poolDim at h
  split at h
  · rename_i h1 h2
    split at h1 <;> cases h1
    split at h2 <;> cases h2
    cases h; exact ⟨rfl, rfl, rfl⟩
  · cases h
  · cases h

theorem pool2x2_err {s : Shape} {e : BuildErr} (h : pool2x2 s = .error e) :
    ∃ a b, e = .negDim a b := by
  unfold pool2x2 poolDim at h
  split at h
  · cases h
  · rename_i h1
    split at h1 <;> cases h1
    cases h; exact ⟨_, _, rfl⟩
  · rename_i h1
    split at h1 <;> cases h1
    cases h; exact ⟨_, _, rfl⟩

theorem deconv2 (pad : Padding) (n : ℕ) : deconvDim pad 2 2 n = 2 * n := by
  cases pad <;> simp [deconvDim] <;> omega

/-! ## Block-level lemmas -/

theorem upsampled_eq (x : Shape) (f : ℕ) :
    upsampled x f = ⟨2 * x.height, 2 * x.width, f⟩ := by
  simp [upsampled, deconv2]

theorem dsBlock_ok {pad : Padding} {bn : Bool} {dr : ℚ} {f : ℕ} {s p sk : Shape}
    (h : downsamplingBlock pad bn dr f s = .ok (p, sk)) :
    s.height % 2 = 0 ∧ s.width % 2 = 0 ∧ sk.channels = f ∧
    sk.height ≤ s.height ∧ sk.width ≤ s.width ∧
    p.height = sk.height / 2 ∧ p.width = sk.width / 2 ∧ p.channels = f := by
  simp only [downsamplingBlock, batchNorm_eq, dropoutL_eq, activation_eq] at h
  split at h
  · cases h
  split at h
  · cases h
  rename_i hhe hwe
  split at h
  · cases h
  rename_i x1 hc1
  split at h
  · cases h
  rename_i x2 hc2
  split at h
  · cases h
  rename_i q hp
  cases h
  obtain ⟨e1, e2, e3⟩ := conv2D_ok hc1
  obtain ⟨g1, g2, g3⟩ := conv2D_ok hc2
  obtain ⟨p1, p2, p3⟩ := pool2x2_ok hp
  refine ⟨by omega, by omega, g1, by omega, by omega, p1, p2, by omega⟩

theorem dsBlock_err {pad : Padding} {bn : Bool} {dr : ℚ} {f : ℕ} {s : Shape}
    {e : BuildErr} (h : downsamplingBlock pad bn dr f s = .error e) :
    e.isNegCrop = false := by
  simp only [downsamplingBlock, batchNorm_eq, dropoutL_eq, activation_eq] at h
  split at h
  · cases h; rfl
  split at h
  · cases h; rfl
  split at h
  · cases h
    obtain ⟨a, b, rfl⟩ := conv2D_err (by assumption)
    rfl
  split at h
  · cases h
    obtain ⟨a, b, rfl⟩ := conv2D_err (by assumption)
    rfl
  split at h
  · cases h
    obtain ⟨a, b, rfl⟩ := pool2x2_err (by assumption)
    rfl
  cases h

theorem pool2x2_pos {s t : Shape} (h : pool2x2 s = .ok t) :
    0 < s.height ∧ 0 < s.width := by
  unfold pool2x2 poolDim at h
  split at h
  · rename_i h1 h2
    split at h1 <;> cases h1
    split at h2 <;> cases h2
    exact ⟨by omega, by omega⟩
  · cases h
  · cases h

theorem dsBlock_same {bn : Bool} {dr : ℚ} {f : ℕ} {s p sk : Shape}
    (h : downsamplingBlock .same bn dr f s = .ok (p, sk)) :
    sk = ⟨s.height, s.width, f⟩ ∧ p = ⟨s.height / 2, s.width / 2, f⟩ ∧
    s.height % 2 = 0 ∧ s.width % 2 = 0 ∧ 0 < s.height ∧ 0 < s.width := by
  simp only [downsamplingBlock, batchNorm_eq, dropoutL_eq, activation_eq,
    conv2D_same] at h
  split at h
  · cases h
  split at h
  · cases h
  rename_i hhe hwe
  split at h
  · cases h
  rename_i q hp
  cases h
  obtain ⟨p1, p2, p3⟩ := pool2x2_ok hp
  obtain ⟨p4, p5⟩ := pool2x2_pos hp
  refine ⟨rfl, ?_, by omega, by omega, p4, p5⟩
  obtain ⟨ph, pw, pc⟩ := p
  simp only at p1 p2 p3
  simp [p1, p2, p3]

theorem fitSkip_spec {xh xw : ℕ} {skip : Shape}
    (hh : xh ≤ skip.height) (hw : xw ≤ skip.width) :
    (fitSkip xh xw skip).height = xh ∧ (fitSkip xh xw skip).width = xw ∧
    (fitSkip xh xw skip).channels = skip.channels := by
  simp only [fitSkip, cropSplit]
  split
  · rename_i hc
    exact ⟨by omega, by omega, rfl⟩
  · exact ⟨by simp only; omega, by simp only; omega, rfl⟩

theorem upsamplingBlock_ok_fit {pad : Padding} {bn : Bool} {dr : ℚ} {f : ℕ}
    {x skip y : Shape}
    (hh : 2 * x.height ≤ skip.height) (hw : 2 * x.width ≤ skip.width)
    (h : upsamplingBlock pad bn dr f x skip = .ok y) :
    y.height ≤ 2 * x.height ∧ y.width ≤ 2 * x.width ∧ y.channels = f := by
  simp only [upsamplingBlock, upsampled_eq, batchNorm_eq, dropoutL_eq,
    activation_eq] at h
  split at h
  · cases h
  split at h
  · cases h
  split at h
  · cases h
  split at h
  · cases h
  rename_i z1 hc1
  split at h
  · cases h
  rename_i z2 hc2
  cases h
  obtain ⟨e1, e2, e3⟩ := conv2D_ok hc1
  obtain ⟨g1, g2, g3⟩ := conv2D_ok hc2
  simp only at e2 e3
  exact ⟨by omega, by omega, g1⟩

theorem upsamplingBlock_err_fit {pad : Padding} {bn : Bool} {dr : ℚ} {f : ℕ}
    {x skip : Shape} {e : BuildErr}
    (hh : 2 * x.height ≤ skip.height) (hw : 2 * x.width ≤ skip.width)
    (h : upsamplingBlock pad bn dr f x skip = .error e) :
    ∃ a b, e = .negDim a b := by
  simp only [upsamplingBlock, upsampled_eq, batchNorm_eq, dropoutL_eq,
    activation_eq] at h
  split at h
  · rename_i hlt; omega
  split at h
  · rename_i hlt; omega
  split at h
  · rename_i hne
    obtain ⟨f1, f2, f3⟩ := fitSkip_spec hh hw
    rcases hne with hne | hne
    · exact absurd f1 hne
    · exact absurd f2 hne
  split at h
  · cases h; exact conv2D_err (by assumption)
  split at h
  · cases h; exact conv2D_err (by assumption)
  cases h

theorem upsamplingBlock_same {bn : Bool} {dr : ℚ} {f : ℕ} {x skip : Shape}
    (hh : skip.height = 2 * x.height) (hw : skip.width = 2 * x.width) :
    upsamplingBlock .same bn dr f x skip = .ok ⟨skip.height, skip.width, f⟩ := by
  have hfs : fitSkip (2 * x.height) (2 * x.width) skip = skip := by
    simp only [fitSkip]
    rw [if_pos]
    exact ⟨by omega, by omega⟩
  simp only [upsamplingBlock, upsampled_eq, batchNorm_eq, dropoutL_eq,
    activation_eq, hfs]
  rw [if_neg (by omega), if_neg (by omega), if_neg (by omega)]
  simp [conv2D_same, hh, hw]

theorem upsamplingBlock_negCropH {pad : Padding} {bn : Bool} {dr : ℚ} {f : ℕ}
    {x skip : Shape} (hlt : skip.height < 2 * x.height) :
    upsamplingBlock pad bn dr f x skip =
      .error (.negCropHeight skip.height (2 * x.height)) := by
  simp only [upsamplingBlock, upsampled_eq]
  rw [if_pos hlt]

theorem upsamplingBlock_negCropW {pad : Padding} {bn : Bool} {dr : ℚ} {f : ℕ}
    {x skip : Shape} (hge : 2 * x.height ≤ skip.height)
    (hlt : skip.width < 2 * x.width) :
    upsamplingBlock pad bn dr f x skip =
      .error (.negCropWidth skip.width (2 * x.width)) := by
  simp only [upsamplingBlock, upsampled_eq]
  rw [if_neg (by omega), if_pos hlt]

/-! ## Encoder lemmas -/

theorem encoder_spec {pad : Padding} {bn : Bool} {dr : ℚ} :
    ∀ {d : ℕ} {x : Shape} {f : ℕ} {sk : List Shape} {x1 : Shape} {f1 : ℕ},
    encoder pad bn dr d x f = .ok (sk, x1, f1) →
    sk.length = d ∧ f1 = f * 2 ^ d ∧
    (∀ i, i < d → (sk.getD i ⟨0, 0, 0⟩).channels = f * 2 ^ i) ∧
    hangs sk x1 ∧
    (match sk with
     | [] => x1 = x
     | s :: _ => s.height ≤ x.height ∧ s.width ≤ x.width) := by
  intro d
  induction d with
  | zero =>
    intro x f sk x1 f1 h
    simp only [encoder] at h
    cases h
    exact ⟨rfl, by simp, fun i hi => absurd hi (by omega), trivial, rfl⟩
  | succ d ih =>
    intro x f sk x1 f1 h
    simp only [encoder] at h
    split at h
    · cases h
    rename_i p1 s1 hblk
    split at h
    · cases h
    rename_i skips2 x2 f2 hrec
    cases h
    obtain ⟨ihlen, ihf, ihch, ihhang, ihhead⟩ := ih hrec
    obtain ⟨hb1, hb2, hb3, hb4, hb5, hb6, hb7, hb8⟩ := dsBlock_ok hblk
    refine ⟨by simp [ihlen], by rw [ihf]; ring, ?_, ?_, ⟨hb4, hb5⟩⟩
    · intro i hi
      cases i with
      | zero => simpa using hb3
      | succ i =>
        rw [List.getD_cons_succ, ihch i (by omega)]
        ring
    · refine ⟨ihhang, ?_⟩
      cases skips2 with
      | nil =>
        simp only at ihhead
        subst ihhead
        exact ⟨by omega, by omega⟩
      | cons s2 rest =>
        simp only at ihhead
        exact ⟨by omega, by omega⟩

theorem encoder_same {bn : Bool} {dr : ℚ} :
    ∀ {d : ℕ} {x : Shape} {f : ℕ} {sk : List Shape} {x1 : Shape} {f1 : ℕ},
    encoder .same bn dr d x f = .ok (sk, x1, f1) →
    2 ^ d ∣ x.height ∧ 2 ^ d ∣ x.width ∧
    x1.height = x.height / 2 ^ d ∧ x1.width = x.width / 2 ^ d ∧
    sameChain sk x1 ∧
    (match sk with
     | [] => x1 = x
     | s :: _ => s.height = x.height ∧ s.width = x.width) := by
  intro d
  induction d with
  | zero =>
    intro x f sk x1 f1 h
    simp only [encoder] at h
    cases h
    exact ⟨one_dvd _, one_dvd _, by simp, by simp, trivial, rfl⟩
  | succ d ih =>
    intro x f sk x1 f1 h
    simp only [encoder] at h
    split at h
    · cases h
    rename_i p1 s1 hblk
    split at h
    · cases h
    rename_i skips2 x2 f2 hrec
    cases h
    obtain ⟨hsB, hp, hev, hew, hpos, hpos2⟩ := dsBlock_same hblk
    subst hsB hp
    obtain ⟨ihdh, ihdw, ihxh, ihxw, ihchain, ihhead⟩ := ih hrec
    simp only at ihdh ihdw ihxh ihxw
    constructor
    · obtain ⟨k, hk⟩ := ihdh
      exact ⟨k, by rw [pow_succ, mul_comm (2 ^ d) 2, mul_assoc, ← hk]; omega⟩
    constructor
    · obtain ⟨k, hk⟩ := ihdw
      exact ⟨k, by rw [pow_succ, mul_comm (2 ^ d) 2, mul_assoc, ← hk]; omega⟩
    constructor
    · rw [ihxh, Nat.div_div_eq_div_mul, pow_succ, mul_comm 2 (2 ^ d)]
    constructor
    · rw [ihxw, Nat.div_div_eq_div_mul, pow_succ, mul_comm 2 (2 ^ d)]
    refine ⟨⟨ihchain, ?_⟩, by exact ⟨rfl, rfl⟩⟩
    cases skips2 with
    | nil =>
      simp only at ihhead
      subst ihhead
      refine ⟨?_, ?_⟩ <;> simp <;> omega
    | cons s2 rest =>
      simp only at ihhead
      obtain ⟨ha, hb⟩ := ihhead
      refine ⟨?_, ?_⟩ <;> simp [ha, hb] <;> omega

/-! ## Bottleneck and invariant-transfer lemmas -/

theorem bottleneck_spec {pad : Padding} {bn : Bool} {dr : ℚ} {f : ℕ} :
    ∀ {n rate : ℕ} {x y : Shape} {tr : List (ℕ × ℕ)},
    bottleneck pad bn dr f n rate x = .ok (y, tr) →
    tr.length = n ∧ (∀ i, i < n → tr.getD i (0, 0) = (rate * 2 ^ i, f)) ∧
    y.height ≤ x.height ∧ y.width ≤ x.width ∧
    (pad = .same → y.height = x.height ∧ y.width = x.width) := by
  intro n
  induction n with
  | zero =>
    intro rate x y tr h
    simp only [bottleneck] at h
    cases h
    exact ⟨rfl, fun i hi => absurd hi (by omega), le_refl _, le_refl _,
      fun _ => ⟨rfl, rfl⟩⟩
  | succ n ih =>
    intro rate x y tr h
    simp only [bottleneck, batchNorm_eq, dropoutL_eq, activation_eq] at h
    split at h
    · cases h
    rename_i x1 hc
    split at h
    · cases h
    rename_i y2 tr2 hrec
    cases h
    obtain ⟨ihlen, ihtr, ihyh, ihyw, ihsame⟩ := ih hrec
    obtain ⟨hc1, hc2, hc3⟩ := conv2D_ok hc
    refine ⟨by simp [ihlen], ?_, by omega, by omega, ?_⟩
    · intro i hi
      cases i with
      | zero => simp
      | succ i =>
        rw [List.getD_cons_succ, ihtr i (by omega)]
        have harith : rate * 2 * 2 ^ i = rate * 2 ^ (i + 1) := by ring
        rw [harith]
    · intro hpad
      subst hpad
      rw [conv2D_same] at hc
      cases hc
      obtain ⟨ea, eb⟩ := ihsame rfl
      simp only at ea eb
      exact ⟨by omega, by omega⟩

theorem hangs_mono : ∀ {sk : List Shape} {x y : Shape},
    hangs sk x → y.height ≤ x.height → y.width ≤ x.width → hangs sk y := by
  intro sk
  induction sk with
  | nil => intro x y _ _ _; trivial
  | cons s rest ih =>
    intro x y h hh hw
    obtain ⟨h1, h2⟩ := h
    refine ⟨ih h1 hh hw, ?_⟩
    cases rest with
    | nil =>
      simp only at h2 ⊢
      omega
    | cons s1 r2 => exact h2

theorem sameChain_congr : ∀ {sk : List Shape} {x y : Shape},
    sameChain sk x → y.height = x.height → y.width = x.width → sameChain sk y := by
  intro sk
  induction sk with
  | nil => intro x y _ _ _; trivial
  | cons s rest ih =>
    intro x y h hh hw
    obtain ⟨h1, h2⟩ := h
    refine ⟨ih h1 hh hw, ?_⟩
    cases rest with
    | nil =>
      simp only at h2 ⊢
      omega
    | cons s1 r2 => exact h2

/-! ## Decoder lemmas -/

theorem decoder_trace {pad : Padding} {bn : Bool} {dr : ℚ} :
    ∀ {sk : List Shape} {x : Shape} {f : ℕ} {y : Shape} {f1 : ℕ}
      {tr : List (Shape × ℕ)},
    decoder pad bn dr sk x f = .ok (y, f1, tr) →
    tr.map Prod.fst = sk.reverse ∧
    tr.map Prod.snd = (List.range sk.length).map (fun j => f / 2 ^ (j + 1)) ∧
    f1 = f / 2 ^ sk.length := by
  intro sk
  induction sk with
  | nil =>
    intro x f y f1 tr h
    simp only [decoder] at h
    cases h
    exact ⟨rfl, rfl, by simp⟩
  | cons s rest ih =>
    intro x f y f1 tr h
    simp only [decoder] at h
    split at h
    · cases h
    rename_i x2 f2 tr2 hrec
    split at h
    · cases h
    rename_i y2 hup
    cases h
    obtain ⟨ih1, ih2, ih3⟩ := ih hrec
    refine ⟨?_, ?_, ?_⟩
    · rw [List.map_append, ih1]
      simp
    · rw [List.map_append, ih2, ih3, List.length_cons, List.range_succ,
        List.map_append]
      congr 1
      simp [Nat.div_div_eq_div_mul, pow_succ]
    · rw [ih3, List.length_cons, Nat.div_div_eq_div_mul, ← pow_succ]

theorem decoder_safe {pad : Padding} {bn : Bool} {dr : ℚ} :
    ∀ {sk : List Shape} {x : Shape} {f : ℕ},
    hangs sk x →
    (∀ e, decoder pad bn dr sk x f = .error e → e.isNegCrop = false) ∧
    (∀ y f1 tr, decoder pad bn dr sk x f = .ok (y, f1, tr) →
      match sk with
      | [] => y = x
      | s :: _ => y.height ≤ s.height ∧ y.width ≤ s.width) := by
  intro sk
  induction sk with
  | nil =>
    intro x f _
    constructor
    · intro e he
      simp only [decoder] at he
      cases he
    · intro y f1 tr h
      simp only [decoder] at h
      cases h
      rfl
  | cons s rest ih =>
    intro x f hg
    obtain ⟨hg1, hg2⟩ := hg
    have key : ∀ x2 f2 tr2, decoder pad bn dr rest x f = .ok (x2, f2, tr2) →
        2 * x2.height ≤ s.height ∧ 2 * x2.width ≤ s.width := by
      intro x2 f2 tr2 hrec
      have h2 := (ih hg1).2 x2 f2 tr2 hrec
      cases rest with
      | nil =>
        simp only at h2 hg2
        subst h2
        exact hg2
      | cons s1 r =>
        simp only at h2 hg2
        omega
    constructor
    · intro e he
      simp only [decoder] at he
      split at he
      · rename_i e2 hrec
        cases he
        exact (ih hg1).1 _ hrec
      rename_i x2 f2 tr2 hrec
      split at he
      · rename_i e2 hup
        cases he
        obtain ⟨hb1, hb2⟩ := key _ _ _ hrec
        obtain ⟨a, b, rfl⟩ := upsamplingBlock_err_fit hb1 hb2 hup
        rfl
      cases he
    · intro y f1 tr h
      simp only [decoder] at h
      split at h
      · cases h
      rename_i x2 f2 tr2 hrec
      split at h
      · cases h
      rename_i y2 hup
      cases h
      obtain ⟨hb1, hb2⟩ := key _ _ _ hrec
      obtain ⟨u1, u2, u3⟩ := upsamplingBlock_ok_fit hb1 hb2 hup
      exact ⟨by omega, by omega⟩

theorem decoder_same {bn : Bool} {dr : ℚ} :
    ∀ {sk : List Shape} {x : Shape} {f : ℕ},
    sameChain sk x →
    ∃ y f1 tr, decoder .same bn dr sk x f = .ok (y, f1, tr) ∧
      (match sk with
       | [] => y = x
       | s :: _ => y.height = s.height ∧ y.width = s.width) := by
  intro sk
  induction sk with
  | nil =>
    intro x f _
    exact ⟨x, f, [], rfl, rfl⟩
  | cons s rest ih =>
    intro x f hc
    obtain ⟨hc1, hc2⟩ := hc
    obtain ⟨x2, f2, tr2, hrec, hdim⟩ := @ih x f hc1
    have hfit : s.height = 2 * x2.height ∧ s.width = 2 * x2.width := by
      cases rest with
      | nil =>
        simp only at hdim hc2
        subst hdim
        exact hc2
      | cons s1 r =>
        simp only at hdim hc2
        omega
    have hup := @upsamplingBlock_same bn dr (f2 / 2) x2 s hfit.1 hfit.2
    refine ⟨⟨s.height, s.width, f2 / 2⟩, f2 / 2, tr2 ++ [(s, f2 / 2)], ?_, ⟨rfl, rfl⟩⟩
    simp only [decoder, hrec, hup]

/-! ## Top-level lemmas about `dilatedUnet` -/

theorem encoder_err {pad : Padding} {bn : Bool} {dr : ℚ} :
    ∀ {d : ℕ} {x : Shape} {f : ℕ} {e : BuildErr},
    encoder pad bn dr d x f = .error e → e.isNegCrop = false := by
  intro d
  induction d with
  | zero =>
    intro x f e h
    simp only [encoder] at h
    cases h
  | succ d ih =>
    intro x f e h
    simp only [encoder] at h
    split at h
    · rename_i e2 hblk
      cases h
      exact dsBlock_err hblk
    rename_i p1 s1 hblk
    split at h
    · rename_i e2 hrec
      cases h
      exact ih hrec
    cases h

theorem bottleneck_err {pad : Padding} {bn : Bool} {dr : ℚ} {f : ℕ} :
    ∀ {n rate : ℕ} {x : Shape} {e : BuildErr},
    bottleneck pad bn dr f n rate x = .error e → e.isNegCrop = false := by
  intro n
  induction n with
  | zero =>
    intro rate x e h
    simp only [bottleneck] at h
    cases h
  | succ n ih =>
    intro rate x e h
    simp only [bottleneck, batchNorm_eq, dropoutL_eq, activation_eq] at h
    split at h
    · rename_i e2 hc
      cases h
      obtain ⟨a, b, rfl⟩ := conv2D_err hc
      rfl
    rename_i x1 hc
    split at h
    · rename_i e2 hrec
      cases h
      exact ih hrec
    cases h

theorem dilatedUnet_ok_inv {height width channels classes features depth : ℕ}
    {temperature : ℚ} {pad : Padding} {bn : Bool} {dropout : ℚ}
    {dilationLayers : ℕ} {m : ModelInfo}
    (hm : dilatedUnet height width channels classes features depth temperature
      pad bn dropout dilationLayers = .ok m) :
    ∃ x1 f1 x2 x3 f3,
      encoder pad bn dropout depth ⟨height, width, channels⟩ features =
        .ok (m.skips, x1, f1) ∧
      bottleneck pad bn dropout f1 dilationLayers 1 x1 = .ok (x2, m.dilTrace) ∧
      decoder pad bn dropout m.skips x2 f1 = .ok (x3, f3, m.decTrace) ∧
      m.out = ⟨x3.height, x3.width, classes⟩ := by
  unfold dilatedUnet at hm
  split at hm
  · cases hm
  rename_i skips x1 f1 henc
  split at hm
  · cases hm
  rename_i x2 dtr hbot
  split at hm
  · cases hm
  rename_i x3 f3 ctr hdec
  split at hm
  · cases hm
  rename_i logits hconv
  rw [conv1x1_valid] at hconv
  cases hconv
  cases hm
  exact ⟨x1, f1, x2, x3, f3, henc, hbot, hdec, rfl⟩

theorem dilatedUnet_err {height width channels classes features depth : ℕ}
    {temperature : ℚ} {pad : Padding} {bn : Bool} {dropout : ℚ}
    {dilationLayers : ℕ} {e : BuildErr}
    (hm : dilatedUnet height width channels classes features depth temperature
      pad bn dropout dilationLayers = .error e) :
    e.isNegCrop = false := by
  unfold dilatedUnet at hm
  split at hm
  · rename_i e2 henc
    cases hm
    exact encoder_err henc
  rename_i skips x1 f1 henc
  split at hm
  · rename_i e2 hbot
    cases hm
    exact bottleneck_err hbot
  rename_i x2 dtr hbot
  split at hm
  · rename_i e2 hdec
    cases hm
    obtain ⟨_, _, _, hhang, _⟩ := encoder_spec henc
    obtain ⟨_, _, hby, hbw, _⟩ := bottleneck_spec hbot
    exact (decoder_safe (hangs_mono hhang hby hbw)).1 _ hdec
  rename_i x3 f3 ctr hdec
  split at hm
  · rename_i e2 hconv
    rw [conv1x1_valid] at hconv
    cases hconv
  cases hm

theorem filtersList_getD (f d i : ℕ) (hi : i < d) :
    ((List.range d).map fun j => f * 2 ^ d / 2 ^ (j + 1)).reverse.getD i 0 =
      f * 2 ^ i := by
  have hlen : ((List.range d).map fun j => f * 2 ^ d / 2 ^ (j + 1)).length = d := by
    simp
  rw [List.getD_eq_getElem?_getD, List.getElem?_reverse (by omega), hlen]
  have hd : d - 1 - i < d := by omega
  rw [List.getElem?_map, List.getElem?_range hd]
  have e1 : d - 1 - i + 1 = d - i := by omega
  have e2 : (2 : ℕ) ^ d = 2 ^ i * 2 ^ (d - i) := by
    rw [← pow_add]
    congr 1
    omega
  simp only [Option.map_some', Option.getD_some]
  rw [e1, e2, ← mul_assoc, Nat.mul_div_cancel _ (pow_pos (by omega) _)]

/-! ## Claims -/

/-- C1, counterexample: divisibility of height and width by `2^depth` is not
required for a successful build.  With `padding='valid'`, `depth=2`, the
102×102 input is not divisible by `2^2 = 4`, yet `dilated_unet` builds a model
(the stage inputs 102 and 48 are both even, which is all the code asserts). -/
theorem c1_counterexample :
    ¬ (2 ^ 2 ∣ 102) ∧
    (dilatedUnet 102 102 1 2 64 2 1 .valid false 0 1).isOk = true :=
  ⟨by decide, by rfl⟩

/-- C1, amended: with `padding='same'` (where each stage preserves spatial
dims before pooling), a successful build does force `height` and `width` to be
divisible by `2^depth`; with `padding='valid'` the condition is neither
necessary nor sufficient, since the convolutions shrink each stage input. -/
theorem c1_same_padding_needs_divisibility
    (height width channels classes features depth : ℕ) (temperature : ℚ)
    (bn : Bool) (dropout : ℚ) (dilationLayers : ℕ) (m : ModelInfo)
    (hm : dilatedUnet height width channels classes features depth temperature
      .same bn dropout dilationLayers = .ok m) :
    2 ^ depth ∣ height ∧ 2 ^ depth ∣ width := by
  obtain ⟨x1, f1, x2, x3, f3, henc, _, _, _⟩ := dilatedUnet_ok_inv hm
  obtain ⟨dh, dw, _⟩ := encoder_same henc
  exact ⟨dh, dw⟩

/-- C1, witness for the amended theorem at the documented 256×256, depth-3,
same-padding configuration. -/
theorem c1_witness : (2 ^ 3 ∣ 256) ∧ (2 ^ 3 ∣ 256) :=
  c1_same_padding_needs_divisibility 256 256 1 5 64 3 1 false 0 5 model256 rfl

/-- C3: in every upsampling stage, a zero crop leaves the skip tensor
unmodified; otherwise the skip tensor is centre-cropped with
`floor(c/2)` removed from the top/left and `c - floor(c/2)` from the
bottom/right, so that the result has exactly the upsampled tensor's spatial
shape (and, when `c` is odd, one more row is removed from the bottom than
from the top). -/
theorem c3_center_crop (xh xw : ℕ) (skip : Shape)
    (hh : xh ≤ skip.height) (hw : xw ≤ skip.width) :
    (skip.height - xh = 0 ∧ skip.width - xw = 0 → fitSkip xh xw skip = skip) ∧
    (fitSkip xh xw skip).height = xh ∧
    (fitSkip xh xw skip).width = xw ∧
    (fitSkip xh xw skip).channels = skip.channels ∧
    (∀ c : ℕ, cropSplit c = (c / 2, c - c / 2)) ∧
    (∀ c : ℕ, (cropSplit c).1 + (cropSplit c).2 = c) ∧
    (∀ c : ℕ, c % 2 = 1 → (cropSplit c).2 = (cropSplit c).1 + 1) := by
  obtain ⟨f1, f2, f3⟩ := fitSkip_spec hh hw
  refine ⟨?_, f1, f2, f3, fun c => rfl,
    fun c => by simp only [cropSplit]; omega,
    fun c hc => by simp only [cropSplit]; omega⟩
  intro h0
  obtain ⟨ha, hb⟩ := h0
  simp only [fitSkip]
  rw [if_pos (And.intro ha hb)]

/-- C3, witness at a concrete odd-crop instance: `xh=3, xw=4`,
skip `10×11×7`. -/
theorem c3_witness :
    (fitSkip 3 4 ⟨10, 11, 7⟩).height = 3 ∧ cropSplit 7 = (3, 4) :=
  ⟨(c3_center_crop 3 4 ⟨10, 11, 7⟩ (by decide) (by decide)).2.1,
   (c3_center_crop 3 4 ⟨10, 11, 7⟩ (by decide) (by decide)).2.2.2.2.1 7⟩

/-- C4, counterexample: `temperature = 0` does not raise at construction; the
model for the 256×256 configuration is still produced. -/
theorem c4_counterexample :
    (dilatedUnet 256 256 1 5 64 3 0 .same false 0 5).isOk = true := by rfl

/-- C4, amended: construction never inspects the temperature — the value is
only captured in the deferred elementwise `Lambda` division node — so the
built graph is the same for every temperature, and `temperature = 0` builds
the full model (the division by zero could only surface when the graph is
later executed). -/
theorem c4_temperature_unchecked :
    (∀ (height width channels classes features depth dilationLayers : ℕ)
       (pad : Padding) (bn : Bool) (dropout t1 t2 : ℚ),
       dilatedUnet height width channels classes features depth t1 pad bn
         dropout dilationLayers =
       dilatedUnet height width channels classes features depth t2 pad bn
         dropout dilationLayers) ∧
    dilatedUnet 256 256 1 5 64 3 0 .same false 0 5 = .ok model256 :=
  ⟨fun _ _ _ _ _ _ _ _ _ _ _ _ => rfl, rfl⟩

/-- C5, counterexample: a configuration violating four of the listed
conditions at once — `depth = 0`, `dilation_layers = 0`, `temperature = 0`,
`dropout = -1` — builds without any error. -/
theorem c5_counterexample :
    (dilatedUnet 16 16 1 2 8 0 0 .same false (-1) 0).isOk = true := by rfl

/-- C5, amended: the code performs no configuration validation: for any
temperature and any dropout value, `depth = 0` and `dilation_layers = 0`
build successfully (the loops run zero times and the dropout branch is
skipped); only an unrecognized padding string would be rejected, by the
backend convolution layer when first constructed. -/
theorem c5_no_validation (t dropout : ℚ) :
    dilatedUnet 16 16 1 2 8 0 t .same false dropout 0 =
      .ok ⟨⟨16, 16, 2⟩, [], [], []⟩ := by
  rfl

/-- C8, counterexample: the 284×284, depth-4, valid-padding scenario does not
build. -/
theorem c8_counterexample :
    (dilatedUnet 284 284 3 2 64 4 1 .valid false 0 5).isOk = false := by rfl

/-- C8, amended: with `height=284, width=284, channels=3, classes=2, depth=4,
padding='valid'`, construction fails with a ShapeError (evenness assertion) at
the second encoder stage, whose input is 139×139 (284 → conv 282 → dilated
conv 278 → pool 139, which is odd); no model is produced. -/
theorem c8_fails_at_stage2 :
    dilatedUnet 284 284 3 2 64 4 1 .valid false 0 5 =
      .error (.oddHeight 139) := by
  rfl

/-- C10: the transposed convolution of the upsampling block is built with the
library default padding (the source passes no padding argument), and with
kernel 2, stride 2 its output is exactly twice the input in both spatial
dimensions — for either padding mode, so the result is independent of the
configured padding. -/
theorem c10_transposed_conv_doubles :
    (∀ (x : Shape) (fl : ℕ),
       (upsampled x fl).height = 2 * x.height ∧
       (upsampled x fl).width = 2 * x.width ∧
       (upsampled x fl).channels = fl) ∧
    (∀ (pad : Padding) (n : ℕ), deconvDim pad 2 2 n = 2 * n) := by
  constructor
  · intro x fl
    rw [upsampled_eq]
    exact ⟨rfl, rfl, rfl⟩
  · exact deconv2

/-- C2: for every configuration on which `dilated_unet` builds, the output
channel count equals `classes`; with `padding='same'` the output spatial shape
equals the input spatial shape; and the documented 256×256/5-class/depth-3
configuration yields output shape exactly (256, 256, 5). -/
theorem c2_output_shape :
    (∀ (height width channels classes features depth dilationLayers : ℕ)
       (temperature : ℚ) (pad : Padding) (bn : Bool) (dropout : ℚ)
       (m : ModelInfo),
       dilatedUnet height width channels classes features depth temperature pad
         bn dropout dilationLayers = .ok m → m.out.channels = classes) ∧
    (∀ (height width channels classes features depth dilationLayers : ℕ)
       (temperature : ℚ) (bn : Bool) (dropout : ℚ) (m : ModelInfo),
       dilatedUnet height width channels classes features depth temperature
         .same bn dropout dilationLayers = .ok m →
       m.out.height = height ∧ m.out.width = width) ∧
    Except.map ModelInfo.out (dilatedUnet 256 256 1 5 64 3 1 .same false 0 5) =
      .ok ⟨256, 256, 5⟩ := by
  refine ⟨?_, ?_, by rfl⟩
  · intro height width channels classes features depth dilationLayers
      temperature pad bn dropout m hm
    obtain ⟨x1, f1, x2, x3, f3, henc, hbot, hdec, hout⟩ := dilatedUnet_ok_inv hm
    rw [hout]
  · intro height width channels classes features depth dilationLayers
      temperature bn dropout m hm
    obtain ⟨x1, f1, x2, x3, f3, henc, hbot, hdec, hout⟩ := dilatedUnet_ok_inv hm
    obtain ⟨dh, dw, hx1h, hx1w, hchain, hhead⟩ := encoder_same henc
    obtain ⟨_, _, _, _, hsame⟩ := bottleneck_spec hbot
    obtain ⟨hb1, hb2⟩ := hsame rfl
    have hchain2 : sameChain m.skips x2 := sameChain_congr hchain hb1 hb2
    obtain ⟨y, fy, ty, hdec2, hydim⟩ := @decoder_same bn dropout m.skips x2 f1 hchain2
    have heq := hdec2.symm.trans hdec
    cases heq
    cases hms : m.skips with
    | nil =>
      rw [hms] at hydim hhead
      simp only at hydim hhead
      subst hydim
      subst hhead
      rw [hout]
      simp only at hb1 hb2 ⊢
      exact ⟨by omega, by omega⟩
    | cons s rest =>
      rw [hms] at hydim hhead
      simp only at hydim hhead
      rw [hout]
      simp only at hb1 hb2 ⊢
      exact ⟨by omega, by omega⟩

/-- C2, witness at the 256×256 configuration. -/
theorem c2_witness :
    model256.out.channels = 5 ∧ model256.out.height = 256 ∧
      model256.out.width = 256 :=
  ⟨c2_output_shape.1 256 256 1 5 64 3 5 1 .same false 0 model256 rfl,
   (c2_output_shape.2.1 256 256 1 5 64 3 5 1 false 0 model256 rfl).1,
   (c2_output_shape.2.1 256 256 1 5 64 3 5 1 false 0 model256 rfl).2⟩

/-- C6: on every successful build the bottleneck trace has exactly
`dilation_layers` entries, the `n`-th (0-indexed) dilated convolution uses
dilation rate `2^n`, and every bottleneck convolution uses the same filter
count `features * 2^depth` (the feature count is unchanged through the
phase). -/
theorem c6_bottleneck_dilation
    (height width channels classes features depth dilationLayers : ℕ)
    (temperature : ℚ) (pad : Padding) (bn : Bool) (dropout : ℚ) (m : ModelInfo)
    (hm : dilatedUnet height width channels classes features depth temperature
      pad bn dropout dilationLayers = .ok m) :
    m.dilTrace.length = dilationLayers ∧
    (∀ n, n < dilationLayers →
      m.dilTrace.getD n (0, 0) = (2 ^ n, features * 2 ^ depth)) := by
  obtain ⟨x1, f1, x2, x3, f3, henc, hbot, hdec, hout⟩ := dilatedUnet_ok_inv hm
  obtain ⟨_, hf1, _, _, _⟩ := encoder_spec henc
  subst hf1
  obtain ⟨hlen, htr, _, _, _⟩ := bottleneck_spec hbot
  refine ⟨hlen, fun n hn => ?_⟩
  have h := htr n hn
  rwa [one_mul] at h

/-- C6, witness at the 256×256 configuration: five bottleneck layers, the
fourth using dilation rate 8 and 512 filters. -/
theorem c6_witness :
    model256.dilTrace.length = 5 ∧
      model256.dilTrace.getD 3 (0, 0) = (8, 512) :=
  ⟨(c6_bottleneck_dilation 256 256 1 5 64 3 5 1 .same false 0 model256 rfl).1,
   (c6_bottleneck_dilation 256 256 1 5 64 3 5 1 .same false 0 model256 rfl).2
     3 (by decide)⟩

/-- C7: on every successful build the skip list has length exactly `depth`,
the decoder consumes it in reverse index order (its consumption trace is the
reverse of the skip list), and the filter count used by decoder stage `i`
equals the filter count of encoder stage `i` (the channel count of skip `i`),
namely `features * 2^i`. -/
theorem c7_skip_symmetry
    (height width channels classes features depth dilationLayers : ℕ)
    (temperature : ℚ) (pad : Padding) (bn : Bool) (dropout : ℚ) (m : ModelInfo)
    (hm : dilatedUnet height width channels classes features depth temperature
      pad bn dropout dilationLayers = .ok m) :
    m.skips.length = depth ∧
    m.decTrace.map Prod.fst = m.skips.reverse ∧
    (∀ i, i < depth →
      (m.decTrace.map Prod.snd).reverse.getD i 0 =
        (m.skips.getD i ⟨0, 0, 0⟩).channels ∧
      (m.skips.getD i ⟨0, 0, 0⟩).channels = features * 2 ^ i) := by
  obtain ⟨x1, f1, x2, x3, f3, henc, hbot, hdec, hout⟩ := dilatedUnet_ok_inv hm
  obtain ⟨hlen, hf1, hch, _, _⟩ := encoder_spec henc
  subst hf1
  obtain ⟨ht1, ht2, ht3⟩ := decoder_trace hdec
  refine ⟨hlen, ht1, fun i hi => ?_⟩
  have hchi := hch i hi
  refine ⟨?_, hchi⟩
  rw [ht2, hlen, hchi]
  exact filtersList_getD features depth i hi

/-- C7, witness at the 256×256 configuration: three skips, consumed in
reverse, with decoder stage 1 using 128 filters. -/
theorem c7_witness :
    model256.skips.length = 3 ∧
    model256.decTrace.map Prod.fst = model256.skips.reverse ∧
    (model256.decTrace.map Prod.snd).reverse.getD 1 0 = 128 :=
  ⟨(c7_skip_symmetry 256 256 1 5 64 3 5 1 .same false 0 model256 rfl).1,
   (c7_skip_symmetry 256 256 1 5 64 3 5 1 .same false 0 model256 rfl).2.1,
   ((c7_skip_symmetry 256 256 1 5 64 3 5 1 .same false 0 model256 rfl).2.2
       1 (by decide)).1.trans
     ((c7_skip_symmetry 256 256 1 5 64 3 5 1 .same false 0 model256 rfl).2.2
       1 (by decide)).2⟩

/-- C9: the crop amounts are checked to be non-negative — a skip tensor
spatially smaller than the upsampled tensor makes `upsampling_block` fail at
that point with the corresponding crop error — and within `dilated_unet` this
error branch is unreachable: no configuration whatsoever can make the build
fail with a negative-crop error, because every decoder-stage input is provably
small enough for its matching skip tensor. -/
theorem c9_crop_safety :
    (∀ (height width channels classes features depth dilationLayers : ℕ)
       (temperature : ℚ) (pad : Padding) (bn : Bool) (dropout : ℚ)
       (e : BuildErr),
       dilatedUnet height width channels classes features depth temperature pad
         bn dropout dilationLayers = .error e → e.isNegCrop = false) ∧
    (∀ (pad : Padding) (bn : Bool) (dropout : ℚ) (fl : ℕ) (x skip : Shape),
       skip.height < 2 * x.height →
       upsamplingBlock pad bn dropout fl x skip =
         .error (.negCropHeight skip.height (2 * x.height))) ∧
    (∀ (pad : Padding) (bn : Bool) (dropout : ℚ) (fl : ℕ) (x skip : Shape),
       2 * x.height ≤ skip.height → skip.width < 2 * x.width →
       upsamplingBlock pad bn dropout fl x skip =
         .error (.negCropWidth skip.width (2 * x.width))) :=
  ⟨fun _ _ _ _ _ _ _ _ _ _ _ _ hm => dilatedUnet_err hm,
   fun _ _ _ _ _ _ h => upsamplingBlock_negCropH h,
   fun _ _ _ _ _ _ h1 h2 => upsamplingBlock_negCropW h1 h2⟩

/-- C9, witness: a concrete negative-crop failure of `upsampling_block`, and
the concrete failing build of the 284×284 scenario erroring with a
non-crop error. -/
theorem c9_witness :
    upsamplingBlock .valid false 0 4 ⟨10, 10, 8⟩ ⟨12, 12, 4⟩ =
      .error (.negCropHeight 12 20) ∧
    BuildErr.isNegCrop (.oddHeight 139) = false :=
  ⟨c9_crop_safety.2.1 .valid false 0 4 ⟨10, 10, 8⟩ ⟨12, 12, 4⟩ (by decide),
   c9_crop_safety.1 284 284 3 2 64 4 5 1 .valid false 0 (.oddHeight 139) rfl⟩
